import Mathlib

/-!
Verification development for the glTF scene-graph / animation code of
`homework/homework1/homework1.cpp` (class `VulkanglTFModel`).

The arithmetic of the program (glm vectors, matrices, quaternions, animation
times) is embedded over `ℚ`: every finite floating-point computation in the
claims under study is exact (sums, differences, products of small constants),
so the rational model coincides with the float model on the inputs the
theorems evaluate.  The only operations that are not exactly representable
(`inversesqrt` on a nonzero argument, `slerp` followed by quaternion
normalization) are taken as parameters of the corresponding definitions; the
IEEE-754 special-value behaviour of `inversesqrt(0)` and `0 * inf`, which one
claim depends on, is modelled exactly by the small value type `FVal`.
Machine-integer casts (`static_cast<uint32_t>`, `size_t` subtraction) are
modelled as `Nat` arithmetic with explicit `% 2^32` / `% 2^64`.
Out-of-bounds vector accesses and null-pointer dereferences (undefined
behaviour in the C++ source) are modelled by `Option`, `none` standing for UB.
-/

/-- 2-component rational vector (glm::vec2). -/
structure V2 where
  x : ℚ
  y : ℚ
deriving DecidableEq, Repr

/-- 3-component rational vector (glm::vec3). -/
structure V3 where
  x : ℚ
  y : ℚ
  z : ℚ
deriving DecidableEq, Repr

/-- 4-component rational vector (glm::vec4). -/
structure V4 where
  x : ℚ
  y : ℚ
  z : ℚ
  w : ℚ
deriving DecidableEq, Repr

/-- Quaternion with rational components (glm::quat), stored as (w, x, y, z). -/
structure QuatQ where
  w : ℚ
  x : ℚ
  y : ℚ
  z : ℚ
deriving DecidableEq, Repr

/-- 4x4 rational matrix (glm::mat4), written row-major: `mRC` is row R, column C.
glm stores matrices column-major, but `operator*`, `translate`, `scale` and
`mat4(quat)` below are the same mathematical maps regardless of storage. -/
structure Mat4 where
  m00 : ℚ
  m01 : ℚ
  m02 : ℚ
  m03 : ℚ
  m10 : ℚ
  m11 : ℚ
  m12 : ℚ
  m13 : ℚ
  m20 : ℚ
  m21 : ℚ
  m22 : ℚ
  m23 : ℚ
  m30 : ℚ
  m31 : ℚ
  m32 : ℚ
  m33 : ℚ
deriving DecidableEq, Repr

/-- glm::mat4(1.0f), the identity matrix. -/
def idMat4 : Mat4 :=
  ⟨1,0,0,0, 0,1,0,0, 0,0,1,0, 0,0,0,1⟩

/-- Matrix product (glm `mat4 * mat4`). -/
def mulM (a b : Mat4) : Mat4 :=
  ⟨a.m00*b.m00 + a.m01*b.m10 + a.m02*b.m20 + a.m03*b.m30,
   a.m00*b.m01 + a.m01*b.m11 + a.m02*b.m21 + a.m03*b.m31,
   a.m00*b.m02 + a.m01*b.m12 + a.m02*b.m22 + a.m03*b.m32,
   a.m00*b.m03 + a.m01*b.m13 + a.m02*b.m23 + a.m03*b.m33,
   a.m10*b.m00 + a.m11*b.m10 + a.m12*b.m20 + a.m13*b.m30,
   a.m10*b.m01 + a.m11*b.m11 + a.m12*b.m21 + a.m13*b.m31,
   a.m10*b.m02 + a.m11*b.m12 + a.m12*b.m22 + a.m13*b.m32,
   a.m10*b.m03 + a.m11*b.m13 + a.m12*b.m23 + a.m13*b.m33,
   a.m20*b.m00 + a.m21*b.m10 + a.m22*b.m20 + a.m23*b.m30,
   a.m20*b.m01 + a.m21*b.m11 + a.m22*b.m21 + a.m23*b.m31,
   a.m20*b.m02 + a.m21*b.m12 + a.m22*b.m22 + a.m23*b.m32,
   a.m20*b.m03 + a.m21*b.m13 + a.m22*b.m23 + a.m23*b.m33,
   a.m30*b.m00 + a.m31*b.m10 + a.m32*b.m20 + a.m33*b.m30,
   a.m30*b.m01 + a.m31*b.m11 + a.m32*b.m21 + a.m33*b.m31,
   a.m30*b.m02 + a.m31*b.m12 + a.m32*b.m22 + a.m33*b.m32,
   a.m30*b.m03 + a.m31*b.m13 + a.m32*b.m23 + a.m33*b.m33⟩

/-- Matrix applied to a 4-vector (glm `mat4 * vec4`). -/
def mulV (a : Mat4) (v : V4) : V4 :=
  ⟨a.m00*v.x + a.m01*v.y + a.m02*v.z + a.m03*v.w,
   a.m10*v.x + a.m11*v.y + a.m12*v.z + a.m13*v.w,
   a.m20*v.x + a.m21*v.y + a.m22*v.z + a.m23*v.w,
   a.m30*v.x + a.m31*v.y + a.m32*v.z + a.m33*v.w⟩

/-- glm::translate(glm::mat4(1.0f), t): identity with t in the last column. -/
def translateMat (t : V3) : Mat4 :=
  ⟨1,0,0,t.x, 0,1,0,t.y, 0,0,1,t.z, 0,0,0,1⟩

/-- glm::scale(glm::mat4(1.0f), s): diagonal (s.x, s.y, s.z, 1). -/
def scaleMat (s : V3) : Mat4 :=
  ⟨s.x,0,0,0, 0,s.y,0,0, 0,0,s.z,0, 0,0,0,1⟩

/-- glm::mat4(q): the rotation matrix of quaternion q (glm `mat3_cast`
formula, upper-left 3x3; last row/column as in the identity). -/
def quatMat4 (q : QuatQ) : Mat4 :=
  ⟨1 - 2*(q.y*q.y + q.z*q.z), 2*(q.x*q.y - q.w*q.z),     2*(q.x*q.z + q.w*q.y),     0,
   2*(q.x*q.y + q.w*q.z),     1 - 2*(q.x*q.x + q.z*q.z), 2*(q.y*q.z - q.w*q.x),     0,
   2*(q.x*q.z - q.w*q.y),     2*(q.y*q.z + q.w*q.x),     1 - 2*(q.x*q.x + q.y*q.y), 0,
   0,                         0,                         0,                         1⟩

/-- The transform-relevant fields of `VulkanglTFModel::Node`:
`translation`, `rotation`, `scale` and the raw `matrix`.  The parent chain is
not stored here; `getNodeMatrix` below receives it as an explicit list. -/
structure NodeTRS where
  translation : V3
  rotation : QuatQ
  scale : V3
  matrix : Mat4
deriving DecidableEq, Repr

/-- `Node::getLocalMatrix` (homework1.cpp:98-101):
`translate(mat4(1), translation) * mat4(rotation) * scale(mat4(1), scale) * matrix`. -/
def getLocalMatrix (n : NodeTRS) : Mat4 :=
  mulM (translateMat n.translation) (mulM (quatMat4 n.rotation) (mulM (scaleMat n.scale) n.matrix))

/-- `VulkanglTFModel::getNodeMatrix` (homework1.cpp:632-642).  `ancestors` is
the node's parent chain, nearest parent first, root last — the order in which
the `while (currentParent)` loop visits it; each step left-multiplies the
ancestor's local matrix onto the accumulator. -/
def getNodeMatrix (n : NodeTRS) (ancestors : List NodeTRS) : Mat4 :=
  ancestors.foldl (fun acc p => mulM (getLocalMatrix p) acc) (getLocalMatrix n)

/-- Product of a list of matrices, left-to-right (`[a, b, c] ↦ a * (b * (c * id))`).
Used to state the spec's "world = rootmost local * ... * parent local * node local". -/
def prodMat : List Mat4 → Mat4
  | [] => idMat4
  | m :: rest => mulM m (prodMat rest)

/-! ## Animation evaluation (`VulkanglTFModel::updateAnimation`, homework1.cpp:645-702)

`uint32_t` / `size_t` arithmetic is modelled on `Nat` with explicit wrap-around;
out-of-bounds `std::vector` accesses and null-pointer writes (undefined
behaviour) are modelled by `Option`, `none` standing for UB. -/

/-- 2^32, the modulus of `uint32_t`. -/
def U32 : Nat := 4294967296

/-- 2^64, the modulus of `size_t` on the 64-bit targets this sample builds for. -/
def U64 : Nat := 18446744073709551616

/-- `x - 1` on a `uint32_t` holding `x % 2^32` (wraps when the value is 0). -/
def sub1u32 (n : Nat) : Nat := (n + (U32 - 1)) % U32

/-- `x - 1` on a `size_t` (wraps when the value is 0, as in
`sampler.inputs.size() - 1` for an empty vector). -/
def sub1u64 (n : Nat) : Nat := (n + (U64 - 1)) % U64

/-- glm::mix(x, y, a) componentwise on vec4: `x + a * (y - x)` (exact over ℚ). -/
def mix4 (x y : V4) (a : ℚ) : V4 :=
  ⟨x.x + a * (y.x - x.x), x.y + a * (y.y - x.y), x.z + a * (y.z - x.z), x.w + a * (y.w - x.w)⟩

/-- Truncation of a vec4 to a vec3, as in the assignments
`channel.node->translation = glm::mix(...)` and the scale counterpart. -/
def vec3of (v : V4) : V3 := ⟨v.x, v.y, v.z⟩

/-- The quaternion built componentwise from a sampler output vec4
(homework1.cpp:680-690: x,y,z,w copied field by field). -/
def quatOfV4 (v : V4) : QuatQ := ⟨v.w, v.x, v.y, v.z⟩

/-- The three node fields `updateAnimation` mutates. -/
structure AnimFields where
  translation : V3
  rotation : QuatQ
  scale : V3
deriving DecidableEq, Repr

/-- `VulkanglTFModel::AnimationSampler` (homework1.cpp:141-146). -/
structure AnimationSampler where
  interpolation : String
  inputs : List ℚ
  outputsVec4 : List V4
deriving DecidableEq, Repr

/-- `VulkanglTFModel::AnimationChannel` (homework1.cpp:148-153).  The `Node*`
target is modelled as `none` (nullptr) or `some j` (the node stored at slot `j`
of the model's flat node-field list). -/
structure AnimationChannel where
  path : String
  node : Option Nat
  samplerIndex : Nat
deriving DecidableEq, Repr

/-- `VulkanglTFModel::Animation` (homework1.cpp:155-163), minus `name`. -/
structure Animation where
  samplers : List AnimationSampler
  channels : List AnimationChannel
  startT : ℚ
  endT : ℚ
  currentTime : ℚ
deriving DecidableEq, Repr

/-- The state `updateAnimation` touches: the animation list, the animated
node fields, and the `activeAnimation` selector (a `uint32_t`). -/
structure AnimModel where
  animations : List Animation
  nodes : List AnimFields
  activeAnimation : Nat
deriving DecidableEq, Repr

/-- `animation.currentTime += deltaTime;
if (animation.currentTime > animation.end) animation.currentTime -= animation.end;`
(homework1.cpp:653-657). -/
def tickTime (currentTime deltaTime endT : ℚ) : ℚ :=
  let t := currentTime + deltaTime
  if t > endT then t - endT else t

/-- The writes inside a matched keyframe segment (homework1.cpp:674-697): three
independent `if`s on `channel.path`.  `slerpN q1 q2 a` stands for
`glm::normalize(glm::slerp(q1, q2, a))`, an irrational floating-point
computation taken as a parameter of the whole development. -/
def applyChannelWrites (slerpN : QuatQ → QuatQ → ℚ → QuatQ) (path : String)
    (a : ℚ) (oi oi1 : V4) (f : AnimFields) : AnimFields :=
  let f1 := if path = "translation" then { f with translation := vec3of (mix4 oi oi1 a) } else f
  let f2 := if path = "rotation" then
    { f1 with rotation := slerpN (quatOfV4 oi) (quatOfV4 oi1) a } else f1
  if path = "scale" then { f2 with scale := vec3of (mix4 oi oi1 a) } else f2

/-- One iteration (loop counter `i`) of the per-channel keyframe loop
(homework1.cpp:662-698), acting on the target-node pointer state `ptr`
(`none` = nullptr).  Result `none` models undefined behaviour: an
out-of-bounds `sampler.inputs`/`sampler.outputsVec4` read or a write through a
null `channel.node`.  The `&&` of the segment test short-circuits, so
`inputs[i + 1]` is only read when `currentTime >= inputs[i]`, and the outputs
are only read when the segment matches and the path is one of the three
recognized strings. -/
def channelStep (slerpN : QuatQ → QuatQ → ℚ → QuatQ) (t : ℚ) (s : AnimationSampler)
    (path : String) (i : Nat) (ptr : Option AnimFields) : Option (Option AnimFields) :=
  if s.interpolation ≠ "LINEAR" then some ptr
  else
    match s.inputs[i]? with
    | none => none
    | some ti =>
      if ti ≤ t then
        match s.inputs[i+1]? with
        | none => none
        | some ti1 =>
          if t ≤ ti1 then
            let a := (t - ti) / (ti1 - ti)
            if path = "translation" ∨ path = "rotation" ∨ path = "scale" then
              match s.outputsVec4[i]?, s.outputsVec4[i+1]?, ptr with
              | some oi, some oi1, some f =>
                some (some (applyChannelWrites slerpN path a oi oi1 f))
              | _, _, _ => none
            else some ptr
          else some ptr
      else some ptr

/-- The loop `for (size_t i = 0; i < sampler.inputs.size() - 1; i++)`
(homework1.cpp:662): `remaining` counts iterations still to run and `i` is the
loop counter; the initial call passes `remaining = sub1u64 inputs.length`,
which underflows to 2^64 - 1 for an empty input vector. -/
def channelLoop (slerpN : QuatQ → QuatQ → ℚ → QuatQ) (t : ℚ) (s : AnimationSampler)
    (path : String) : Nat → Nat → Option AnimFields → Option (Option AnimFields)
  | 0, _, ptr => some ptr
  | remaining+1, i, ptr =>
    match channelStep slerpN t s path i ptr with
    | none => none
    | some ptr' => channelLoop slerpN t s path remaining (i+1) ptr'

/-- Effect of one `updateAnimation` tick on a single channel whose target-node
pointer state is `ptr` (one element of the `for (auto& channel : ...)` loop,
homework1.cpp:659-699). -/
def channelTick (slerpN : QuatQ → QuatQ → ℚ → QuatQ) (t : ℚ) (s : AnimationSampler)
    (path : String) (ptr : Option AnimFields) : Option (Option AnimFields) :=
  channelLoop slerpN t s path (sub1u64 s.inputs.length) 0 ptr

/-- One channel of the loop body: fetch the channel's sampler
(`animation.samplers[channel.samplerIndex]`, out of range = UB), run the
keyframe loop against the target node, and write the result back. -/
def runChannel (slerpN : QuatQ → QuatQ → ℚ → QuatQ) (t : ℚ)
    (samplers : List AnimationSampler) (nodes : List AnimFields)
    (ch : AnimationChannel) : Option (List AnimFields) :=
  match samplers[ch.samplerIndex]? with
  | none => none
  | some s =>
    match ch.node with
    | none =>
      match channelTick slerpN t s ch.path none with
      | none => none
      | some _ => some nodes
    | some j =>
      match nodes[j]? with
      | none => none
      | some f =>
        match channelTick slerpN t s ch.path (some f) with
        | none => none
        | some none => some nodes
        | some (some f') => some (nodes.set j f')

/-- The `for (auto& channel : animation.channels)` loop (homework1.cpp:659). -/
def runChannels (slerpN : QuatQ → QuatQ → ℚ → QuatQ) (t : ℚ)
    (samplers : List AnimationSampler) :
    List AnimationChannel → List AnimFields → Option (List AnimFields)
  | [], nodes => some nodes
  | ch :: rest, nodes =>
    match runChannel slerpN t samplers nodes ch with
    | none => none
    | some nodes' => runChannels slerpN t samplers rest nodes'

/-- `VulkanglTFModel::updateAnimation(float deltaTime)` (homework1.cpp:645-702).
The guard compares the `uint32_t` selector with
`static_cast<uint32_t>(animations.size()) - 1`; when it fires the function
prints a message and returns with the model untouched (`some m`).  Otherwise
`animations[activeAnimation]` is read (out of bounds = UB = `none`), its clock
advanced, and every channel evaluated at the new time.  The trailing
`updateMeshUniformBuffers()` only republishes world matrices to GPU memory and
does not change this state. -/
def updateAnimation (slerpN : QuatQ → QuatQ → ℚ → QuatQ) (deltaTime : ℚ)
    (m : AnimModel) : Option AnimModel :=
  if m.activeAnimation > sub1u32 (m.animations.length % U32) then some m
  else
    match m.animations[m.activeAnimation]? with
    | none => none
    | some anim =>
      let anim' := { anim with currentTime := tickTime anim.currentTime deltaTime anim.endT }
      match runChannels slerpN anim'.currentTime anim'.samplers anim'.channels m.nodes with
      | none => none
      | some nodes' =>
        some { m with animations := m.animations.set m.activeAnimation anim', nodes := nodes' }

/-- A trivial stand-in for the normalize-after-slerp parameter, used only to
instantiate closed statements whose evaluation never reaches a rotation write. -/
def slerpTriv : QuatQ → QuatQ → ℚ → QuatQ := fun q _ _ => q

/-! ## Animation time range (`VulkanglTFModel::loadAnimations`, homework1.cpp:505-590) -/

/-- `std::numeric_limits<float>::max()`, the initial value of `Animation::start`
(homework1.cpp:160): (2 - 2^-23) * 2^127. -/
def FLT_MAX : ℚ := 340282346638528859811704183484516925440

/-- `std::numeric_limits<float>::min()`, the initial value of `Animation::end`
(homework1.cpp:161): the smallest positive normalized float, 2^-126.  It is a
tiny positive number, not the most negative float and not -infinity. -/
def FLT_MIN_POS : ℚ := 1 / 85070591730234615865843651857942052864

/-- One step of the `Adjust animation's start and end times` fold
(homework1.cpp:534-544): `if (input < start) start = input; if (input > end) end = input;`. -/
def adjustRange (r : ℚ × ℚ) (input : ℚ) : ℚ × ℚ :=
  ((if input < r.1 then input else r.1), (if input > r.2 then input else r.2))

/-- The (start, end) pair of one animation after `loadAnimations` processed the
given samplers' keyframe input-time arrays (in sampler order, each sampler's
array in order), starting from the sentinels above. -/
def animTimeRange (samplerInputs : List (List ℚ)) : ℚ × ℚ :=
  samplerInputs.foldl (fun r inputs => inputs.foldl adjustRange r) (FLT_MAX, FLT_MIN_POS)

/-! ## Concrete instances used by witnesses -/

/-- The spec's wrap scenario: inputTimes = [0, 1], outputs two translation keys. -/
def sampler01 : AnimationSampler := ⟨"LINEAR", [0, 1], [⟨0,0,0,0⟩, ⟨1,0,0,0⟩]⟩

/-- A translation channel driving node slot 0 with sampler 0. -/
def chan0 : AnimationChannel := ⟨"translation", some 0, 0⟩

/-- Animation with time range [0, 1] at currentTime 0. -/
def anim01 : Animation := ⟨[sampler01], [chan0], 0, 1, 0⟩

/-- One-animation model at currentTime 0, one target node. -/
def model01 : AnimModel := ⟨[anim01], [⟨⟨5,5,5⟩, ⟨1,0,0,0⟩, ⟨1,1,1⟩⟩], 0⟩

/-- `model01` after `updateAnimation(1.5)`: the clock wrapped to 0.5 and the
channel wrote the interpolated translation (0.5, 0, 0). -/
def model01' : AnimModel :=
  ⟨[⟨[sampler01], [chan0], 0, 1, 1/2⟩], [⟨⟨1/2,0,0⟩, ⟨1,0,0,0⟩, ⟨1,1,1⟩⟩], 0⟩

/-! ## Geometry assembly (`VulkanglTFModel::loadNode`, homework1.cpp:279-434) -/

/-- IEEE-754 float values as needed to follow `glm::normalize` on the zero
vector: finite values carried exactly as ℚ, the infinities, NaN. -/
inductive FVal where
  | fin : ℚ → FVal
  | posInf : FVal
  | negInf : FVal
  | nan : FVal
deriving DecidableEq, Repr

/-- IEEE-754 product of a finite float `a` with a float `s`:
`0 * (+-inf) = NaN`, `a * NaN = NaN`; finite products are exact on the inputs
studied here. -/
def fmulQ (a : ℚ) (s : FVal) : FVal :=
  match s with
  | .fin b => .fin (a * b)
  | .posInf => if a = 0 then .nan else if 0 < a then .posInf else .negInf
  | .negInf => if a = 0 then .nan else if 0 < a then .negInf else .posInf
  | .nan => .nan

/-- `glm::inversesqrt(d) = 1 / sqrt(d)`.  IEEE-754: `sqrt(+0) = +0` and
`1 / +0 = +inf`; `sqrt` of a negative is NaN.  The finite positive case is an
irrational float, supplied by the parameter `isq`. -/
def inversesqrtF (isq : ℚ → ℚ) (d : ℚ) : FVal :=
  if d = 0 then .posInf
  else if d < 0 then .nan
  else .fin (isq d)

/-- A float 3-vector (for normals, which can be NaN). -/
structure V3F where
  x : FVal
  y : FVal
  z : FVal
deriving DecidableEq, Repr

/-- `glm::normalize(v) = v * inversesqrt(dot(v, v))` on vec3.  For
v = (0,0,0): dot = 0, inversesqrt(0) = +inf, and 0 * inf = NaN in every
component. -/
def glmNormalize3 (isq : ℚ → ℚ) (v : V3) : V3F :=
  let d := v.x * v.x + v.y * v.y + v.z * v.z
  let s := inversesqrtF isq d
  ⟨fmulQ v.x s, fmulQ v.y s, fmulQ v.z s⟩

/-- `VulkanglTFModel::Vertex` (homework1.cpp:42-47) as `loadNode` fills it
(homework1.cpp:366-373): `pos` from the POSITION buffer (the vec4 with w = 1
truncated back to the vec3 member), `normal = normalize(normal-or-zero)`,
`uv` from the TEXCOORD_0 buffer or zero, `color = (1,1,1)`. -/
structure Vertex where
  pos : V3
  normal : V3F
  uv : V2
  color : V3
deriving DecidableEq, Repr

/-- Index accessor component types as distinguished by the switch at
homework1.cpp:388-413: the three supported unsigned widths, or anything else
(`other code` carries `accessor.componentType`). -/
inductive ComponentType where
  | uint32
  | uint16
  | uint8
  | other (code : Int)
deriving DecidableEq, Repr

/-- One glTF primitive as `loadNode` reads it: decoded POSITION / NORMAL /
TEXCOORD_0 attribute arrays (`none` when the semantic is absent from
`glTFPrimitive.attributes`; `vertexCount` is taken from the POSITION accessor,
so it stays 0 when POSITION is missing), the index accessor's component type
and decoded index values (each value < 2^width by construction), and the
primitive's material index. -/
structure SrcPrimitive where
  position : Option (List V3)
  normals : Option (List V3)
  texcoords : Option (List V2)
  componentType : ComponentType
  srcIndices : List Nat
  material : Int
deriving DecidableEq, Repr

/-- `VulkanglTFModel::Primitive` (homework1.cpp:67-71). -/
structure Primitive where
  firstIndex : Nat
  indexCount : Nat
  materialIndex : Int
deriving DecidableEq, Repr

/-- The two global buffers `loadNode` appends to (the `indexBuffer` /
`vertexBuffer` vectors threaded through the recursion). -/
structure LoadState where
  vertexBuffer : List Vertex
  indexBuffer : List Nat
deriving DecidableEq, Repr

/-- The vertex loop `for (size_t v = 0; v < vertexCount; v++)`
(homework1.cpp:366-373): walks the POSITION array; when the optional NORMAL /
TEXCOORD_0 array is present its element `v` is read (an out-of-range read is
UB = `none`), when absent the zero default of lines 369-370 is used. -/
def loadVerticesFrom (isq : ℚ → ℚ) (normals : Option (List V3))
    (texcoords : Option (List V2)) : List V3 → Nat → Option (List Vertex)
  | [], _ => some []
  | p :: ps, v =>
    let nrm : Option (Option V3) :=
      match normals with
      | none => some none
      | some l =>
        match l[v]? with
        | none => none
        | some x => some (some x)
    let tex : Option (Option V2) :=
      match texcoords with
      | none => some none
      | some l =>
        match l[v]? with
        | none => none
        | some x => some (some x)
    match nrm, tex with
    | some n, some t =>
      match loadVerticesFrom isq normals texcoords ps (v+1) with
      | none => none
      | some rest =>
        some ({ pos := p
              , normal := glmNormalize3 isq (n.getD ⟨0,0,0⟩)
              , uv := t.getD ⟨0,0⟩
              , color := ⟨1,1,1⟩ } :: rest)
    | _, _ => none

/-- The whole vertex block of one primitive: with POSITION absent,
`vertexCount` stays 0 and no vertex is produced (and nothing is reported). -/
def loadVertices (isq : ℚ → ℚ) (p : SrcPrimitive) : Option (List Vertex) :=
  match p.position with
  | none => some []
  | some ps => loadVerticesFrom isq p.normals p.texcoords ps 0

/-- Outcome of one iteration of the primitive loop: a recorded `Primitive`, or
the `default:` branch of the index-type switch — one `std::cerr` message and
`return` from `loadNode` (homework1.cpp:410-412). -/
inductive PrimOutcome where
  | ok (prim : Primitive)
  | abortNode (message : String)
deriving DecidableEq, Repr

/-- The body of the primitive loop (homework1.cpp:325-420).
`firstIndex` and `vertexStart` are the two buffer sizes truncated to
`uint32_t` BEFORE this primitive's data is appended; the vertex block appends
the decoded vertices; the index switch widens the 8/16/32-bit source index
values (widening is the identity on the value) and appends
`value + vertexStart` — a `uint32_t` addition, hence mod 2^32 — or, for an
unrecognized component type, produces one message and returns from `loadNode`
(`abortNode`), keeping the vertices already appended but appending no indices
and recording no `Primitive`. -/
def processPrimitive (isq : ℚ → ℚ) (st : LoadState) (p : SrcPrimitive) :
    Option (LoadState × PrimOutcome) :=
  let firstIndex := st.indexBuffer.length % U32
  let vertexStart := st.vertexBuffer.length % U32
  match loadVertices isq p with
  | none => none
  | some vs =>
    let st1 : LoadState := ⟨st.vertexBuffer ++ vs, st.indexBuffer⟩
    match p.componentType with
    | .other code =>
      some (st1, .abortNode ("Index component type " ++ toString code ++ " not supported!"))
    | _ =>
      some (⟨st1.vertexBuffer,
             st1.indexBuffer ++ p.srcIndices.map (fun s => (s + vertexStart) % U32)⟩,
            .ok ⟨firstIndex, p.srcIndices.length % U32, p.material⟩)

/-- The loop over a mesh's primitives (homework1.cpp:325): collects the
recorded `Primitive`s (the node's `mesh.primitives`), the messages printed,
and whether the `return` in the `default:` switch branch was taken (in the
source that abandons the rest of `loadNode` — including attaching the node —
while the caller's loop over further nodes continues). -/
def processNodePrimitives (isq : ℚ → ℚ) (st : LoadState) :
    List SrcPrimitive → Option (LoadState × List Primitive × List String × Bool)
  | [] => some (st, [], [], false)
  | p :: rest =>
    match processPrimitive isq st p with
    | none => none
    | some (st', .abortNode msg) => some (st', [], [msg], true)
    | some (st', .ok prim) =>
      match processNodePrimitives isq st' rest with
      | none => none
      | some (stF, prims, msgs, ab) => some (stF, prim :: prims, msgs, ab)

/-- `uint32_t` subtraction `a - b` (wraps modulo 2^32): how a per-primitive
source index is reconstructed from a global index by subtracting the recorded
vertex-start offset. -/
def usub32 (a b : Nat) : Nat := (a % U32 + (U32 - b % U32)) % U32

/-! ## Node lookup (`findNode` / `nodeFromIndex`, homework1.cpp:471-501) -/

/-- The index/children skeleton of `VulkanglTFModel::Node` that
`findNode`/`nodeFromIndex` traverse. -/
inductive NodeT where
  | mk (index : Nat) (children : List NodeT)

/-- The node's `index` field. -/
def NodeT.index : NodeT → Nat
  | .mk i _ => i

/-- The node's `children` list. -/
def NodeT.children : NodeT → List NodeT
  | .mk _ c => c

mutual
/-- `VulkanglTFModel::findNode` (homework1.cpp:471-487): returns `parent` when
its index matches, otherwise searches its children in declaration order,
depth-first, returning the first non-null result (or null = `none`). -/
def findNode (parent : NodeT) (index : Nat) : Option NodeT :=
  match parent with
  | .mk i cs => if i = index then some (.mk i cs) else findNodeInChildren cs index

/-- The `for (auto& child : parent->children)` loop of `findNode` with its
`break` on the first non-null result. -/
def findNodeInChildren (cs : List NodeT) (index : Nat) : Option NodeT :=
  match cs with
  | [] => none
  | c :: rest =>
    match findNode c index with
    | some found => some found
    | none => findNodeInChildren rest index
end

/-- `VulkanglTFModel::nodeFromIndex` (homework1.cpp:489-501): the same
first-non-null loop over the top-level `nodes` list. -/
def nodeFromIndex (roots : List NodeT) (index : Nat) : Option NodeT :=
  match roots with
  | [] => none
  | n :: rest =>
    match findNode n index with
    | some found => some found
    | none => nodeFromIndex rest index

/-- Some node of the tree (the root itself or a node of some child's subtree)
carries the given index. -/
inductive HasIndex : NodeT → Nat → Prop where
  | self (i : Nat) (cs : List NodeT) : HasIndex (.mk i cs) i
  | child (i : Nat) (cs : List NodeT) (c : NodeT) (j : Nat) :
      c ∈ cs → HasIndex c j → HasIndex (.mk i cs) j

/-- One raw glTF animation channel record (the tinygltf fields read at
homework1.cpp:583-587). -/
structure GlTFChannel where
  target_path : String
  target_node : Nat
  sampler : Nat
deriving DecidableEq, Repr

/-- A decoded channel as `loadAnimations` stores it: `node` is the raw result
of `nodeFromIndex(glTFChannel.target_node)` — possibly null — stored with no
check and no report. -/
structure ResolvedChannel where
  path : String
  samplerIndex : Nat
  node : Option NodeT

/-- The channel-decoding step of `loadAnimations` (homework1.cpp:581-588). -/
def resolveChannel (roots : List NodeT) (ch : GlTFChannel) : ResolvedChannel :=
  ⟨ch.target_path, ch.sampler, nodeFromIndex roots ch.target_node⟩

/-- A placeholder vertex used to populate concrete load states in witnesses. -/
def vtx0 : Vertex := ⟨⟨0,0,0⟩, ⟨.fin 0, .fin 0, .fin 0⟩, ⟨0,0⟩, ⟨1,1,1⟩⟩

theorem mulM_assoc (a b c : Mat4) : mulM (mulM a b) c = mulM a (mulM b c) := by
  simp only [mulM, Mat4.mk.injEq]
  and_intros <;> ring

theorem idMat4_mulM (a : Mat4) : mulM idMat4 a = a := by
  cases a
  simp only [mulM, idMat4, Mat4.mk.injEq]
  and_intros <;> ring

theorem mulM_idMat4 (a : Mat4) : mulM a idMat4 = a := by
  cases a
  simp only [mulM, idMat4, Mat4.mk.injEq]
  and_intros <;> ring

theorem prodMat_append (l₁ l₂ : List Mat4) :
    prodMat (l₁ ++ l₂) = mulM (prodMat l₁) (prodMat l₂) := by
  induction l₁ with
  | nil => simp [prodMat, idMat4_mulM]
  | cons m rest ih => simp [prodMat, ih, mulM_assoc]

theorem getNodeMatrix_foldl (l : List NodeTRS) (acc : Mat4) :
    l.foldl (fun acc p => mulM (getLocalMatrix p) acc) acc
      = mulM (prodMat (l.reverse.map getLocalMatrix)) acc := by
  induction l generalizing acc with
  | nil => simp [prodMat, idMat4_mulM]
  | cons p rest ih =>
    simp only [List.foldl_cons, List.reverse_cons, List.map_append, List.map_cons,
      List.map_nil, prodMat_append, ih]
    simp [prodMat, mulM_idMat4, mulM_assoc]

/-- C3: for every node, `getLocalMatrix` is exactly
`translate(translation) * rotate(rotation) * scale(scale) * rawMatrix` in that
fixed order, and for the default node (zero translation, identity rotation,
unit scale, identity raw matrix) the local matrix is the identity matrix. -/
theorem localMatrix_composition_and_identity :
    (∀ n : NodeTRS,
        getLocalMatrix n
          = mulM (translateMat n.translation)
              (mulM (quatMat4 n.rotation) (mulM (scaleMat n.scale) n.matrix)))
    ∧ getLocalMatrix ⟨⟨0,0,0⟩, ⟨1,0,0,0⟩, ⟨1,1,1⟩, idMat4⟩ = idMat4 := by
  constructor
  · intro n
    rfl
  · simp only [getLocalMatrix, translateMat, quatMat4, scaleMat, mulM, idMat4, Mat4.mk.injEq]
    norm_num

theorem getLocalMatrix_pure_translation (t : V3) :
    getLocalMatrix ⟨t, ⟨1,0,0,0⟩, ⟨1,1,1⟩, idMat4⟩ = translateMat t := by
  simp only [getLocalMatrix, translateMat, quatMat4, scaleMat, mulM, idMat4, Mat4.mk.injEq]
  norm_num

/-- C4: `getNodeMatrix` equals the node's local matrix left-multiplied
successively by each ancestor's local matrix up to the root
(`world = root.local * ... * parent.local * node.local`), and for the concrete
3-level chain root→child→grandchild translating by (1,0,0), (0,1,0), (0,0,1),
the grandchild's world matrix maps the origin to exactly (1,1,1). -/
theorem worldMatrix_chain :
    (∀ (n : NodeTRS) (ancestors : List NodeTRS),
        getNodeMatrix n ancestors
          = prodMat ((ancestors.reverse ++ [n]).map getLocalMatrix))
    ∧ mulV
        (getNodeMatrix
          ⟨⟨0,0,1⟩, ⟨1,0,0,0⟩, ⟨1,1,1⟩, idMat4⟩
          [⟨⟨0,1,0⟩, ⟨1,0,0,0⟩, ⟨1,1,1⟩, idMat4⟩,
           ⟨⟨1,0,0⟩, ⟨1,0,0,0⟩, ⟨1,1,1⟩, idMat4⟩])
        ⟨0,0,0,1⟩ = ⟨1,1,1,1⟩ := by
  constructor
  · intro n ancestors
    simp only [getNodeMatrix, getNodeMatrix_foldl, List.map_append, List.map_cons,
      List.map_nil, prodMat_append]
    simp [prodMat, mulM_idMat4]
  · simp only [getNodeMatrix, List.foldl_cons, List.foldl_nil,
      getLocalMatrix_pure_translation]
    simp only [translateMat, mulM, mulV, V4.mk.injEq]
    norm_num

/-! ## Animation theorems -/

theorem sub1u32_of_pos {n : Nat} (h1 : 1 ≤ n) (h2 : n < U32) :
    sub1u32 (n % U32) = n - 1 := by
  simp only [sub1u32, U32] at *
  omega

theorem sub1u64_of_pos {n : Nat} (h1 : 1 ≤ n) (h2 : n < U64) :
    sub1u64 n = n - 1 := by
  simp only [sub1u64, U64] at *
  omega

theorem channelLoop_no_segment (slerpN : QuatQ → QuatQ → ℚ → QuatQ) (t : ℚ)
    (s : AnimationSampler) (path : String) (f : AnimFields)
    (hseg : ∀ i ti ti1, s.inputs[i]? = some ti → s.inputs[i+1]? = some ti1 →
      ¬(ti ≤ t ∧ t ≤ ti1)) :
    ∀ (remaining i : Nat), i + remaining + 1 = s.inputs.length →
      channelLoop slerpN t s path remaining i (some f) = some (some f) := by
  intro remaining
  induction remaining with
  | zero => intro i _h; rfl
  | succ r ih =>
    intro i h
    have hi : i < s.inputs.length := by omega
    have hi1 : i + 1 < s.inputs.length := by omega
    have hstep : channelStep slerpN t s path i (some f) = some (some f) := by
      by_cases hint : s.interpolation ≠ "LINEAR"
      · unfold channelStep
        rw [if_pos hint]
      · have hnoth := hseg i (s.inputs[i]) (s.inputs[i+1])
          (List.getElem?_eq_getElem hi) (List.getElem?_eq_getElem hi1)
        unfold channelStep
        simp only [if_neg hint, List.getElem?_eq_getElem hi, List.getElem?_eq_getElem hi1]
        by_cases hle : s.inputs[i] ≤ t
        · have h2 : ¬ (t ≤ s.inputs[i+1]) := by tauto
          simp [hle, h2]
        · simp [hle]
    unfold channelLoop
    rw [hstep]
    exact ih (i+1) (by omega)

/-- C6 (amended): for every channel whose sampler has at least one keyframe
(and fewer than 2^64 of them) and whose adjacent keyframe pairs
[inputs[i], inputs[i+1]] never contain currentTime — in particular when
currentTime is before the first or after the last keyframe, or the sampler has
exactly one keyframe — the per-channel loop of updateAnimation leaves the
target node's fields exactly as they were, not reset to identity.  For a
sampler with ZERO keyframes this fails: `sampler.inputs.size() - 1` underflows
(see the counterexample). -/
theorem channelTick_no_segment_unchanged (slerpN : QuatQ → QuatQ → ℚ → QuatQ)
    (t : ℚ) (s : AnimationSampler) (path : String) (f : AnimFields)
    (hne : s.inputs ≠ []) (hlen : s.inputs.length < U64)
    (hseg : ∀ i ti ti1, s.inputs[i]? = some ti → s.inputs[i+1]? = some ti1 →
      ¬(ti ≤ t ∧ t ≤ ti1)) :
    channelTick slerpN t s path (some f) = some (some f) := by
  have h1 : 1 ≤ s.inputs.length := List.length_pos.mpr hne
  unfold channelTick
  rw [sub1u64_of_pos h1 hlen]
  exact channelLoop_no_segment slerpN t s path f hseg (s.inputs.length - 1) 0 (by omega)

/-- C6 witness: a sampler with keyframes at times 2 and 3 queried at time 0
(before the first keyframe) leaves the node fields untouched. -/
theorem channelTick_no_segment_unchanged_witness :
    channelTick slerpTriv 0 ⟨"LINEAR", [2, 3], []⟩ "translation"
      (some ⟨⟨4,4,4⟩, ⟨1,0,0,0⟩, ⟨1,1,1⟩⟩)
      = some (some ⟨⟨4,4,4⟩, ⟨1,0,0,0⟩, ⟨1,1,1⟩⟩) := by
  apply channelTick_no_segment_unchanged
  · simp
  · simp [U64]
  · intro i ti ti1 hti hti1
    match i, hti, hti1 with
    | 0, hti, hti1 =>
      simp only [List.getElem?_cons_zero, Option.some.injEq] at hti
      simp only [List.getElem?_cons_succ, List.getElem?_cons_zero, Option.some.injEq] at hti1
      subst hti; subst hti1
      intro hc
      have := hc.1
      norm_num at this

/-- C6 counterexample: with an EMPTY input-time array (zero keyframes) and
LINEAR interpolation the loop bound `sampler.inputs.size() - 1` underflows to
2^64 - 1 and the first iteration reads `sampler.inputs[0]` out of bounds —
undefined behaviour (modelled as `none`), not "target field left unchanged"
as the claim states for the zero-keyframe case. -/
theorem channelTick_empty_inputs_ub :
    channelTick slerpTriv 0 ⟨"LINEAR", [], []⟩ "translation"
      (some ⟨⟨0,0,0⟩, ⟨1,0,0,0⟩, ⟨1,1,1⟩⟩) = none := rfl

/-- C9 (amended): whenever the animation list is NONEMPTY (and of realistic
size, below 2^32) and the active-animation selector is out of range, the guard
of updateAnimation fires: the condition is reported and the tick is a no-op —
no currentTime and no node field changes.  For an EMPTY animation list the
guard `activeAnimation > static_cast<uint32_t>(animations.size()) - 1`
underflows and never fires (see the counterexample). -/
theorem updateAnimation_out_of_range_noop (slerpN : QuatQ → QuatQ → ℚ → QuatQ)
    (dt : ℚ) (m : AnimModel) (hne : m.animations ≠ [])
    (hlen : m.animations.length < U32)
    (hsel : m.activeAnimation ≥ m.animations.length) :
    updateAnimation slerpN dt m = some m := by
  have h1 : 1 ≤ m.animations.length := List.length_pos.mpr hne
  unfold updateAnimation
  rw [if_pos]
  rw [sub1u32_of_pos h1 hlen]
  omega

/-- C9 witness: a model with one animation and selector 5 is left untouched. -/
theorem updateAnimation_out_of_range_noop_witness :
    updateAnimation slerpTriv 1 ⟨[⟨[], [], 0, 0, 0⟩], [], 5⟩
      = some ⟨[⟨[], [], 0, 0, 0⟩], [], 5⟩ :=
  updateAnimation_out_of_range_noop slerpTriv 1 ⟨[⟨[], [], 0, 0, 0⟩], [], 5⟩
    (by simp) (by simp [U32]) (by simp)

/-- C9 counterexample: with an EMPTY animation list and selector 0 the guard
compares 0 against the underflowed value 2^32 - 1, does not fire, and
`animations[activeAnimation]` indexes an empty vector — undefined behaviour
(modelled as `none`), not the reported no-op the claim states. -/
theorem updateAnimation_empty_list_ub :
    updateAnimation slerpTriv 1 ⟨[], [], 0⟩ = none := rfl

/-- C1: on a tick with a valid active animation that completes without
undefined behaviour, updateAnimation first adds deltaTime to the active
animation's currentTime and then, if the sum exceeds `end`, subtracts `end`
from it exactly once — wrapping relative to `end`, not to the span
`end - start` — leaving every other field of the animation unchanged.  (The
witness instantiates the spec's scenario inputTimes = [0, 1], end = 1,
deltaTime = 1.5 from currentTime = 0 and obtains currentTime = 0.5.) -/
theorem updateAnimation_time_advance (slerpN : QuatQ → QuatQ → ℚ → QuatQ)
    (dt : ℚ) (m m' : AnimModel) (anim : Animation)
    (hact : m.activeAnimation < m.animations.length)
    (hlen : m.animations.length < U32)
    (hanim : m.animations[m.activeAnimation]? = some anim)
    (hrun : updateAnimation slerpN dt m = some m') :
    m'.animations[m.activeAnimation]? =
      some { anim with currentTime :=
        if anim.currentTime + dt > anim.endT then anim.currentTime + dt - anim.endT
        else anim.currentTime + dt } := by
  have h1 : 1 ≤ m.animations.length := by omega
  have hguard : ¬ (m.activeAnimation > sub1u32 (m.animations.length % U32)) := by
    rw [sub1u32_of_pos h1 hlen]
    omega
  unfold updateAnimation at hrun
  rw [if_neg hguard] at hrun
  split at hrun
  next heq => rw [hanim] at heq; cases heq
  next a heq =>
    rw [hanim] at heq
    injection heq with heq'
    subst heq'
    simp only at hrun
    split at hrun
    next => cases hrun
    next nodes' hrc =>
      injection hrun with hrun'
      subst hrun'
      show (m.animations.set m.activeAnimation _)[m.activeAnimation]? = _
      rw [List.getElem?_set_eq_of_lt _ hact]
      simp [tickTime]

/-- C1 witness: the spec scenario — sampler input times [0, 1], end = 1,
deltaTime = 1.5 from currentTime = 0 — wraps the clock to exactly 0.5. -/
theorem updateAnimation_time_advance_witness :
    model01'.animations[0]? =
      some { anim01 with currentTime :=
        if anim01.currentTime + 3/2 > anim01.endT then anim01.currentTime + 3/2 - anim01.endT
        else anim01.currentTime + 3/2 } ∧
    (if (0:ℚ) + 3/2 > 1 then (0:ℚ) + 3/2 - 1 else 0 + 3/2) = 1/2 :=
  ⟨updateAnimation_time_advance slerpTriv (3/2) model01 model01' anim01
      (by simp [model01]) (by simp [model01, U32]) (by simp [model01])
      (by norm_num [updateAnimation, model01, model01', anim01, sampler01, chan0,
        sub1u32, U32, tickTime, runChannels, runChannel, channelTick, sub1u64, U64,
        channelLoop, channelStep, applyChannelWrites, mix4, vec3of, quatOfV4, slerpTriv,
        (by decide : ¬("translation" = "rotation")), (by decide : ¬("translation" = "scale"))]),
   by norm_num⟩

/-! ## Time-range theorems (C8) -/

theorem foldlMin_le_init (l : List ℚ) (a : ℚ) : l.foldl min a ≤ a := by
  induction l generalizing a with
  | nil => simp
  | cons y t ih => exact le_trans (ih (min a y)) (min_le_left a y)

theorem foldlMin_le_of_mem (l : List ℚ) (a x : ℚ) (hx : x ∈ l) : l.foldl min a ≤ x := by
  induction l generalizing a with
  | nil => cases hx
  | cons y t ih =>
    rcases List.mem_cons.mp hx with h | h
    · subst h
      exact le_trans (foldlMin_le_init t (min a x)) (min_le_right a x)
    · exact ih (min a y) h

theorem foldlMin_mem_or_eq (l : List ℚ) (a : ℚ) : l.foldl min a = a ∨ l.foldl min a ∈ l := by
  induction l generalizing a with
  | nil => left; rfl
  | cons y t ih =>
    rcases ih (min a y) with h | h
    · rcases min_choice a y with hc | hc
      · left; rw [List.foldl_cons, h, hc]
      · right; rw [List.foldl_cons, h, hc]; exact List.mem_cons_self y t
    · right; rw [List.foldl_cons]; exact List.mem_cons_of_mem y h

theorem init_le_foldlMax (l : List ℚ) (a : ℚ) : a ≤ l.foldl max a := by
  induction l generalizing a with
  | nil => simp
  | cons y t ih => exact le_trans (le_max_left a y) (ih (max a y))

theorem le_foldlMax_of_mem (l : List ℚ) (a x : ℚ) (hx : x ∈ l) : x ≤ l.foldl max a := by
  induction l generalizing a with
  | nil => cases hx
  | cons y t ih =>
    rcases List.mem_cons.mp hx with h | h
    · subst h
      exact le_trans (le_max_right a x) (init_le_foldlMax t (max a x))
    · exact ih (max a y) h

theorem adjustRange_eq_min_max (r : ℚ × ℚ) (i : ℚ) :
    adjustRange r i = (min r.1 i, max r.2 i) := by
  unfold adjustRange
  congr 1
  · rcases lt_or_ge i r.1 with h | h
    · rw [if_pos h, min_eq_right (le_of_lt h)]
    · rw [if_neg (not_lt.mpr h), min_eq_left h]
  · rcases lt_or_ge r.2 i with h | h
    · rw [if_pos h, max_eq_right (le_of_lt h)]
    · rw [if_neg (not_lt.mpr h), max_eq_left h]

theorem foldl_adjustRange (l : List ℚ) (r : ℚ × ℚ) :
    l.foldl adjustRange r = (l.foldl min r.1, l.foldl max r.2) := by
  induction l generalizing r with
  | nil => rfl
  | cons y t ih => simp [List.foldl_cons, adjustRange_eq_min_max, ih]

theorem animTimeRange_foldl (sl : List (List ℚ)) (r : ℚ × ℚ) :
    sl.foldl (fun r inputs => inputs.foldl adjustRange r) r
      = ((sl.flatten).foldl min r.1, (sl.flatten).foldl max r.2) := by
  induction sl generalizing r with
  | nil => rfl
  | cons l ls ih =>
    rw [List.foldl_cons, ih, foldl_adjustRange, List.flatten_cons]
    simp [List.foldl_append]

/-- C8 (amended): after loadAnimations, an animation's (start, end) pair is the
min/max fold of all its samplers' input times STARTED FROM THE SENTINELS
FLT_MAX (for start) and FLT_MIN = 2^-126, the smallest positive normalized
float (for end) — the sentinels are not +infinity / -infinity.  Consequently:
with no keyframes the pair stays (FLT_MAX, 2^-126); with at least one keyframe
start is the true minimum of the input times (inputs, being floats, never
exceed FLT_MAX), and end is an upper bound of the input times but equals their
true maximum only when some input reaches 2^-126 (see the counterexample). -/
theorem animTimeRange_sentinel_min_max :
    (∀ sl : List (List ℚ),
        animTimeRange sl = ((sl.flatten).foldl min FLT_MAX, (sl.flatten).foldl max FLT_MIN_POS))
    ∧ animTimeRange [] = (FLT_MAX, FLT_MIN_POS)
    ∧ (∀ sl : List (List ℚ), sl.flatten ≠ [] → (∀ x ∈ sl.flatten, x ≤ FLT_MAX) →
        (animTimeRange sl).1 ∈ sl.flatten ∧ ∀ x ∈ sl.flatten, (animTimeRange sl).1 ≤ x)
    ∧ (∀ sl : List (List ℚ), ∀ x ∈ sl.flatten, x ≤ (animTimeRange sl).2) := by
  have hchar : ∀ sl : List (List ℚ),
      animTimeRange sl = ((sl.flatten).foldl min FLT_MAX, (sl.flatten).foldl max FLT_MIN_POS) :=
    fun sl => animTimeRange_foldl sl (FLT_MAX, FLT_MIN_POS)
  refine ⟨hchar, rfl, ?_, ?_⟩
  · intro sl hne hall
    rw [hchar]
    constructor
    · rcases foldlMin_mem_or_eq sl.flatten FLT_MAX with heq | hmem
      · obtain ⟨y, hy⟩ := List.exists_mem_of_ne_nil sl.flatten hne
        have h1 : sl.flatten.foldl min FLT_MAX ≤ y := foldlMin_le_of_mem _ _ _ hy
        rw [heq] at h1
        have h2 : y = FLT_MAX := le_antisymm (hall y hy) h1
        rw [heq, ← h2]
        exact hy
      · exact hmem
    · intro x hx
      exact foldlMin_le_of_mem _ _ _ hx
  · intro sl x hx
    rw [hchar]
    exact le_foldlMax_of_mem _ _ _ hx

/-- C8 witness: for one sampler with input times [0, 1], the computed start is
a member of the input times and a lower bound of them (that is, the minimum). -/
theorem animTimeRange_sentinel_min_max_witness :
    (animTimeRange [[0, 1]]).1 ∈ ([[0, 1]] : List (List ℚ)).flatten
      ∧ ∀ x ∈ ([[0, 1]] : List (List ℚ)).flatten, (animTimeRange [[0, 1]]).1 ≤ x :=
  animTimeRange_sentinel_min_max.2.2.1 [[0, 1]] (by simp)
    (by
      intro x hx
      have hx' : x = 0 ∨ x = 1 := by simpa using hx
      rcases hx' with h | h <;> rw [h] <;> norm_num [FLT_MAX])

/-- C8 counterexample: an animation whose only sampler has the single keyframe
time 0 gets end = FLT_MIN = 2^-126 (the sentinel is never beaten because
0 > 2^-126 is false), NOT the maximum input time 0 the claim requires; and the
sentinel pair is (FLT_MAX, 2^-126), not (+infinity, -infinity). -/
theorem animTimeRange_end_not_max : (animTimeRange [[0]]).2 ≠ 0 := by
  norm_num [animTimeRange, adjustRange, FLT_MAX, FLT_MIN_POS]

/-! ## Geometry-assembly theorems (C2, C5, C7) -/

theorem processPrimitive_indexBuffer_mono (isq : ℚ → ℚ) (st : LoadState)
    (p : SrcPrimitive) (st' : LoadState) (o : PrimOutcome)
    (h : processPrimitive isq st p = some (st', o)) :
    ∃ tail, st'.indexBuffer = st.indexBuffer ++ tail := by
  unfold processPrimitive at h
  split at h
  · cases h
  · split at h
    · injection h with h'
      injection h' with h1 h2
      subst h1
      exact ⟨[], by simp⟩
    · injection h with h'
      injection h' with h1 h2
      subst h1
      exact ⟨_, rfl⟩

theorem processNodePrimitives_indexBuffer_mono (isq : ℚ → ℚ) :
    ∀ (ps : List SrcPrimitive) (st stF : LoadState) (prims : List Primitive)
      (msgs : List String) (ab : Bool),
      processNodePrimitives isq st ps = some (stF, prims, msgs, ab) →
      ∃ tail, stF.indexBuffer = st.indexBuffer ++ tail := by
  intro ps
  induction ps with
  | nil =>
    intro st stF prims msgs ab h
    simp only [processNodePrimitives, Option.some.injEq, Prod.mk.injEq] at h
    obtain ⟨h1, -, -, -⟩ := h
    subst h1
    exact ⟨[], by simp⟩
  | cons p rest ih =>
    intro st stF prims msgs ab h
    unfold processNodePrimitives at h
    split at h
    · cases h
    next st' msg heq =>
      simp only [Option.some.injEq, Prod.mk.injEq] at h
      obtain ⟨h1, -, -, -⟩ := h
      subst h1
      exact processPrimitive_indexBuffer_mono isq st p _ _ heq
    next st' prim heq =>
      split at h
      · cases h
      next stF' prims' msgs' ab' heq2 =>
        simp only [Option.some.injEq, Prod.mk.injEq] at h
        obtain ⟨h1, -, -, -⟩ := h
        subst h1
        obtain ⟨t1, ht1⟩ := processPrimitive_indexBuffer_mono isq st p st' _ heq
        obtain ⟨t2, ht2⟩ := ih st' stF' prims' msgs' ab' heq2
        exact ⟨t1 ++ t2, by rw [ht2, ht1, List.append_assoc]⟩

/-- C2: whenever a primitive P2 is appended (at an arbitrary moment `st1` of
the load — in particular after any earlier primitive P1 — with realistic
buffer sizes below 2^32) and the load continues with arbitrary further
primitives, then (i) P2's recorded firstIndex is the index-buffer length at
the moment it was appended and its indexCount is its source index count;
(ii) the slice [firstIndex, firstIndex + indexCount) of the FINAL global index
sequence is exactly P2's source indices, each widened to 32 bits and offset by
the global vertex count at the moment P2 was appended (uint32 addition);
(iii) subtracting the recorded vertex-start offset (uint32 subtraction) from
each of P2's global indices reproduces the original source indices exactly;
and (iv) where no uint32 wrap occurs the global index literally equals
source + vertexStart. -/
theorem index_offset_roundtrip (isq : ℚ → ℚ) (st1 st2 st3 : LoadState)
    (p : SrcPrimitive) (ps2 : List SrcPrimitive) (prim : Primitive)
    (prims : List Primitive) (msgs : List String) (ab : Bool)
    (h1 : processPrimitive isq st1 p = some (st2, .ok prim))
    (h2 : processNodePrimitives isq st2 ps2 = some (st3, prims, msgs, ab))
    (hfi : st1.indexBuffer.length < U32)
    (hv : st1.vertexBuffer.length < U32)
    (hcnt : p.srcIndices.length < U32)
    (hsrc : ∀ s ∈ p.srcIndices, s < U32) :
    prim.firstIndex = st1.indexBuffer.length ∧
    prim.indexCount = p.srcIndices.length ∧
    (st3.indexBuffer.drop prim.firstIndex).take prim.indexCount
      = p.srcIndices.map (fun s => (s + st1.vertexBuffer.length) % U32) ∧
    (∀ s ∈ p.srcIndices,
      usub32 ((s + st1.vertexBuffer.length) % U32) st1.vertexBuffer.length = s) ∧
    (∀ s ∈ p.srcIndices, s + st1.vertexBuffer.length < U32 →
      (s + st1.vertexBuffer.length) % U32 = s + st1.vertexBuffer.length) := by
  have hvmod : st1.vertexBuffer.length % U32 = st1.vertexBuffer.length :=
    Nat.mod_eq_of_lt hv
  have hstep : st2.indexBuffer
        = st1.indexBuffer ++ p.srcIndices.map (fun s => (s + st1.vertexBuffer.length) % U32)
      ∧ prim = ⟨st1.indexBuffer.length % U32, p.srcIndices.length % U32, p.material⟩ := by
    unfold processPrimitive at h1
    split at h1
    · cases h1
    · split at h1
      · cases h1
      · injection h1 with h'
        injection h' with ha hb
        injection hb with hb'
        subst ha
        constructor
        · simp [hvmod]
        · exact hb'.symm
  obtain ⟨hbuf, hprim⟩ := hstep
  obtain ⟨tail, htail⟩ := processNodePrimitives_indexBuffer_mono isq ps2 st2 st3 prims msgs ab h2
  have hfirst : prim.firstIndex = st1.indexBuffer.length := by
    rw [hprim]
    exact Nat.mod_eq_of_lt hfi
  have hcount : prim.indexCount = p.srcIndices.length := by
    rw [hprim]
    exact Nat.mod_eq_of_lt hcnt
  refine ⟨hfirst, hcount, ?_, ?_, ?_⟩
  · rw [htail, hbuf, hfirst, hcount, List.append_assoc, List.drop_left]
    have hlen : p.srcIndices.length
        = (p.srcIndices.map (fun s => (s + st1.vertexBuffer.length) % U32)).length := by
      simp
    rw [hlen, List.take_left]
  · intro s hs
    have hslt := hsrc s hs
    simp only [usub32, U32] at *
    omega
  · intro s hs hlt
    exact Nat.mod_eq_of_lt hlt

/-- C2 witness: from a state with 3 vertices and 2 indices already loaded, a
uint16 primitive with the single source index 0 records firstIndex 2 and
indexCount 1, contributes the global index 3 = 0 + vertexStart, and
subtracting the vertex start 3 reproduces the source index 0. -/
theorem index_offset_roundtrip_witness :
    (⟨2, 1, 7⟩ : Primitive).firstIndex = 2 ∧
    (⟨2, 1, 7⟩ : Primitive).indexCount = 1 ∧
    ((⟨[vtx0, vtx0, vtx0], [9, 9, 3]⟩ : LoadState).indexBuffer.drop
        (⟨2, 1, 7⟩ : Primitive).firstIndex).take (⟨2, 1, 7⟩ : Primitive).indexCount
      = [0].map (fun s => (s + [vtx0, vtx0, vtx0].length) % U32) ∧
    (∀ s ∈ [0], usub32 ((s + [vtx0, vtx0, vtx0].length) % U32) [vtx0, vtx0, vtx0].length = s) ∧
    (∀ s ∈ [0], s + [vtx0, vtx0, vtx0].length < U32 →
      (s + [vtx0, vtx0, vtx0].length) % U32 = s + [vtx0, vtx0, vtx0].length) :=
  index_offset_roundtrip (fun _ => 0) ⟨[vtx0, vtx0, vtx0], [9, 9]⟩
    ⟨[vtx0, vtx0, vtx0], [9, 9, 3]⟩ ⟨[vtx0, vtx0, vtx0], [9, 9, 3]⟩
    ⟨none, none, none, .uint16, [0], 7⟩ [] ⟨2, 1, 7⟩ [] [] false
    (by simp [processPrimitive, loadVertices, U32])
    (by simp [processNodePrimitives])
    (by simp [U32]) (by simp [U32]) (by simp [U32])
    (by intro s hs; simp at hs; simp [hs, U32])

/-! ## Node-lookup theorems (C10, and channel resolution for C5) -/

mutual
theorem findNode_index_eq : ∀ (t : NodeT) (i : Nat) (m : NodeT),
    findNode t i = some m → m.index = i
  | .mk idx cs, i, m => by
    intro h
    unfold findNode at h
    by_cases hi : idx = i
    · rw [if_pos hi] at h
      injection h with h'
      subst h'
      simpa [NodeT.index] using hi
    · rw [if_neg hi] at h
      exact findNodeInChildren_index_eq cs i m h
theorem findNodeInChildren_index_eq : ∀ (cs : List NodeT) (i : Nat) (m : NodeT),
    findNodeInChildren cs i = some m → m.index = i
  | [], i, m => by
    intro h
    simp [findNodeInChildren] at h
  | c :: rest, i, m => by
    intro h
    unfold findNodeInChildren at h
    cases hfc : findNode c i with
    | some found =>
      rw [hfc] at h
      injection h with h'
      subst h'
      exact findNode_index_eq c i _ hfc
    | none =>
      rw [hfc] at h
      exact findNodeInChildren_index_eq rest i m h
end

mutual
theorem findNode_eq_none : ∀ (t : NodeT) (i : Nat), ¬ HasIndex t i → findNode t i = none
  | .mk idx cs, i => by
    intro h
    unfold findNode
    have hi : idx ≠ i := fun he => h (he ▸ HasIndex.self idx cs)
    rw [if_neg hi]
    exact findNodeInChildren_eq_none cs i
      (fun c hc hx => h (HasIndex.child idx cs c i hc hx))
theorem findNodeInChildren_eq_none : ∀ (cs : List NodeT) (i : Nat),
    (∀ c ∈ cs, ¬ HasIndex c i) → findNodeInChildren cs i = none
  | [], i => by
    intro _h
    rfl
  | c :: rest, i => by
    intro h
    unfold findNodeInChildren
    rw [findNode_eq_none c i (h c (List.mem_cons_self c rest))]
    exact findNodeInChildren_eq_none rest i (fun d hd => h d (List.mem_cons_of_mem c hd))
end

mutual
theorem findNode_isSome : ∀ (t : NodeT) (i : Nat), HasIndex t i → (findNode t i).isSome
  | .mk idx cs, i => by
    intro h
    unfold findNode
    by_cases hi : idx = i
    · rw [if_pos hi]
      rfl
    · rw [if_neg hi]
      cases h with
      | self => exact absurd rfl hi
      | child _ _ c j hc hj => exact findNodeInChildren_isSome cs i c hc hj
theorem findNodeInChildren_isSome : ∀ (cs : List NodeT) (i : Nat) (c : NodeT),
    c ∈ cs → HasIndex c i → (findNodeInChildren cs i).isSome
  | [], i, c => by
    intro hc _h
    cases hc
  | d :: rest, i, c => by
    intro hc h
    unfold findNodeInChildren
    cases hfd : findNode d i with
    | some found => rfl
    | none =>
      rcases List.mem_cons.mp hc with he | he
      · subst he
        have hs := findNode_isSome c i h
        rw [hfd] at hs
        simp at hs
      · exact findNodeInChildren_isSome rest i c he h
end

theorem nodeFromIndex_index_eq : ∀ (roots : List NodeT) (i : Nat) (m : NodeT),
    nodeFromIndex roots i = some m → m.index = i
  | [], i, m => by
    intro h
    simp [nodeFromIndex] at h
  | r :: rest, i, m => by
    intro h
    unfold nodeFromIndex at h
    cases hfr : findNode r i with
    | some found =>
      rw [hfr] at h
      injection h with h'
      subst h'
      exact findNode_index_eq r i _ hfr
    | none =>
      rw [hfr] at h
      exact nodeFromIndex_index_eq rest i m h

theorem nodeFromIndex_isSome : ∀ (roots : List NodeT) (i : Nat),
    (∃ r ∈ roots, HasIndex r i) → (nodeFromIndex roots i).isSome
  | [], i => by
    intro h
    obtain ⟨r, hr, -⟩ := h
    cases hr
  | d :: rest, i => by
    intro h
    unfold nodeFromIndex
    cases hfd : findNode d i with
    | some found => rfl
    | none =>
      obtain ⟨r, hr, hx⟩ := h
      rcases List.mem_cons.mp hr with he | he
      · subst he
        have hs := findNode_isSome r i hx
        rw [hfd] at hs
        simp at hs
      · exact nodeFromIndex_isSome rest i ⟨r, he, hx⟩

theorem nodeFromIndex_eq_none : ∀ (roots : List NodeT) (i : Nat),
    (∀ r ∈ roots, ¬ HasIndex r i) → nodeFromIndex roots i = none
  | [], i => by
    intro _h
    rfl
  | d :: rest, i => by
    intro h
    unfold nodeFromIndex
    rw [findNode_eq_none d i (h d (List.mem_cons_self d rest))]
    exact nodeFromIndex_eq_none rest i (fun r hr => h r (List.mem_cons_of_mem d hr))

/-- C10: nodeFromIndex(i) — searching the roots in order, each root's subtree
depth-first, parent before children — returns SOME node whenever some node of
the loaded forest has index i, never returns a node whose index field differs
from i, and returns null (`none`) when no node has index i. -/
theorem nodeFromIndex_spec :
    (∀ (roots : List NodeT) (i : Nat) (m : NodeT),
        nodeFromIndex roots i = some m → m.index = i)
    ∧ (∀ (roots : List NodeT) (i : Nat),
        (∃ r ∈ roots, HasIndex r i) → (nodeFromIndex roots i).isSome)
    ∧ (∀ (roots : List NodeT) (i : Nat),
        (∀ r ∈ roots, ¬ HasIndex r i) → nodeFromIndex roots i = none) :=
  ⟨nodeFromIndex_index_eq, nodeFromIndex_isSome, nodeFromIndex_eq_none⟩

/-- C10 witness: in the forest [node 3 [node 5], node 4], looking up index 5
returns the depth-first hit, whose index field is 5. -/
theorem nodeFromIndex_spec_witness : (NodeT.mk 5 []).index = 5 :=
  nodeFromIndex_spec.1 [NodeT.mk 3 [NodeT.mk 5 []], NodeT.mk 4 []] 5 (NodeT.mk 5 [])
    (by simp [nodeFromIndex, findNode, findNodeInChildren])

/-- C7: the code does NOT special-case the zero default normal.  For a
primitive lacking NORMAL data, every vertex normal is computed as
`glm::normalize((0,0,0)) = (0,0,0) * inversesqrt(0) = 0 * (+inf) = (NaN, NaN, NaN)`
under IEEE-754 — not `(0,0,0)` as the claim (and the spec's stated intent,
"must be special-cased to leave it zero") requires.  This theorem evaluates
the embedded vertex loader at the failing input: one vertex with POSITION
present and NORMAL absent. -/
theorem missing_normal_gives_nan :
    loadVertices (fun _ => 0) ⟨some [⟨1, 2, 3⟩], none, none, .uint16, [0], 0⟩
      = some [⟨⟨1, 2, 3⟩, ⟨.nan, .nan, .nan⟩, ⟨0, 0⟩, ⟨1, 1, 1⟩⟩]
    ∧ (⟨.nan, .nan, .nan⟩ : V3F) ≠ ⟨.fin 0, .fin 0, .fin 0⟩ := by
  constructor
  · norm_num [loadVertices, loadVerticesFrom, glmNormalize3, inversesqrtF, fmulQ]
  · simp

/-- C5 counterexample: a primitive with NO POSITION attribute does not abort
the load and reports nothing — it "loads" with zero vertices (vertexCount
stays 0), appends its (dangling) offset index, records a Primitive, prints
no message ([]) and takes no abort (false) — contradicting the claim that a
missing POSITION aborts the asset's load with a single reported failure. -/
theorem missing_position_not_fatal :
    processNodePrimitives (fun _ => 0) ⟨[], []⟩ [⟨none, none, none, .uint16, [0], 0⟩]
      = some (⟨[], [0]⟩, [⟨0, 1, 0⟩], [], false) := by
  simp [processNodePrimitives, processPrimitive, loadVertices, U32]

/-- C5 (amended): none of the three conditions aborts the asset's load as a
single reported failure with no partial scene presented:
(a) a primitive missing the required POSITION attribute loads silently with
zero vertices — no report, no abort — and still appends its offset source
indices to the global index buffer;
(b) an unsupported index component width produces exactly one message and
takes the `return` in `loadNode`, abandoning only the CURRENT node's remaining
primitives (the vertices already appended for the offending primitive stay in
the global buffer, no Primitive is recorded) while the caller keeps loading
the remaining nodes and the partially-loaded scene is still presented;
(c) an animation channel whose target node index resolves to no node silently
stores a null node pointer — no report, no abort. -/
theorem fatal_conditions_not_fatal :
    (∀ (isq : ℚ → ℚ) (st : LoadState) (p : SrcPrimitive),
        p.position = none → (∀ c : Int, p.componentType ≠ .other c) →
        processNodePrimitives isq st [p]
          = some (⟨st.vertexBuffer,
                   st.indexBuffer ++ p.srcIndices.map
                     (fun s => (s + st.vertexBuffer.length % U32) % U32)⟩,
                  [⟨st.indexBuffer.length % U32, p.srcIndices.length % U32, p.material⟩],
                  [], false))
    ∧ (∀ (isq : ℚ → ℚ) (st : LoadState) (p : SrcPrimitive) (code : Int)
        (vs : List Vertex) (rest : List SrcPrimitive),
        p.componentType = .other code →
        loadVertices isq p = some vs →
        processNodePrimitives isq st (p :: rest)
          = some (⟨st.vertexBuffer ++ vs, st.indexBuffer⟩, [],
                  ["Index component type " ++ toString code ++ " not supported!"], true))
    ∧ (∀ (roots : List NodeT) (ch : GlTFChannel),
        (∀ r ∈ roots, ¬ HasIndex r ch.target_node) →
        resolveChannel roots ch = ⟨ch.target_path, ch.sampler, none⟩) := by
  refine ⟨?_, ?_, ?_⟩
  · intro isq st p hpos hct
    cases hcomp : p.componentType with
    | uint32 => simp [processNodePrimitives, processPrimitive, loadVertices, hpos, hcomp]
    | uint16 => simp [processNodePrimitives, processPrimitive, loadVertices, hpos, hcomp]
    | uint8 => simp [processNodePrimitives, processPrimitive, loadVertices, hpos, hcomp]
    | other c => exact absurd hcomp (hct c)
  · intro isq st p code vs rest hcomp hv
    simp [processNodePrimitives, processPrimitive, hv, hcomp]
  · intro roots ch h
    unfold resolveChannel
    rw [nodeFromIndex_eq_none roots ch.target_node h]

/-- C5 witness: a concrete primitive declaring an index component type 5126
(a float type) over an already-populated state gets one "not supported"
message, the abort flag, its one vertex kept, and no Primitive recorded. -/
theorem fatal_conditions_not_fatal_witness :
    processNodePrimitives (fun _ => 0) ⟨[], [4]⟩
      [⟨some [⟨1, 2, 3⟩], some [⟨1, 0, 0⟩], none, .other 5126, [0], 0⟩]
      = some (⟨[⟨⟨1, 2, 3⟩, glmNormalize3 (fun _ => 0) ⟨1, 0, 0⟩, ⟨0, 0⟩, ⟨1, 1, 1⟩⟩], [4]⟩,
              [], ["Index component type 5126 not supported!"], true) :=
  fatal_conditions_not_fatal.2.1 (fun _ => 0) ⟨[], [4]⟩
    ⟨some [⟨1, 2, 3⟩], some [⟨1, 0, 0⟩], none, .other 5126, [0], 0⟩ 5126
    [⟨⟨1, 2, 3⟩, glmNormalize3 (fun _ => 0) ⟨1, 0, 0⟩, ⟨0, 0⟩, ⟨1, 1, 1⟩⟩] []
    rfl (by simp [loadVertices, loadVerticesFrom])
